import Mathlib

/-!
Verification of the deskmon-agent collection/broadcast core.

This file gives a shallow embedding, in Lean 4, of the pure computational
content of the Go sources of the deskmon-agent repository, and proves or
refutes the frozen specification claims against it.

Modelling conventions:
  * Go uint64 values are Nat values; where the Go code subtracts unsigned
    integers, the embedding performs the same arithmetic modulo 2^64
    (wrapSub below).
  * Go float64 arithmetic is modelled over the rationals; the rounding
    helper math.Round (round half away from zero) is goRound below.
  * Go maps are total functions into Option.
  * A Go channel with capacity c that is only ever written by the
    non-blocking select-with-default idiom is a bounded FIFO queue: an
    enqueue on a full queue drops the new element (SubQueue.send below).
  * Fallible operations return Except String, carrying the Go error text.
-/

set_option maxRecDepth 100000

namespace Deskmon

/-- The modulus of Go uint64 arithmetic. -/
def U64 : Nat := 2 ^ 64

/-- Unsigned 64-bit subtraction a - b as the Go runtime computes it:
wraparound modulo 2^64 (arguments are reduced first so the definition is
total; Go values are always below the modulus). -/
def wrapSub (a b : Nat) : Nat :=
  (a % U64 + U64 - b % U64) % U64

/-- Go math.Round: round half away from zero, as a map from rationals to
integers. -/
def goRound (x : ℚ) : ℤ :=
  if x < 0 then -⌊-x + 1 / 2⌋ else ⌊x + 1 / 2⌋

/-- The Go idiom math.Round(x*100)/100: round to two decimal places. -/
def round2 (x : ℚ) : ℚ :=
  (goRound (x * 100) : ℚ) / 100

/-- The Go idiom math.Round(x*10)/10: round to one decimal place. -/
def round1 (x : ℚ) : ℚ :=
  (goRound (x * 10) : ℚ) / 10

theorem wrapSub_eq_sub {a b : Nat} (hb : b ≤ a) (ha : a < U64) :
    wrapSub a b = a - b := by
  have hbU : b < U64 := lt_of_le_of_lt hb ha
  unfold wrapSub
  rw [Nat.mod_eq_of_lt ha, Nat.mod_eq_of_lt hbU]
  have h1 : a + U64 - b = U64 + (a - b) := by omega
  rw [h1, Nat.add_mod_left, Nat.mod_eq_of_lt (by omega)]

theorem goRound_nonneg {x : ℚ} (h : 0 ≤ x) : 0 ≤ goRound x := by
  unfold goRound
  rw [if_neg (not_lt.mpr h)]
  have : (0 : ℚ) ≤ x + 1 / 2 := by linarith
  exact Int.floor_nonneg.mpr this

theorem goRound_le_of_le {x : ℚ} {n : ℤ} (h : x ≤ n) : goRound x ≤ n := by
  unfold goRound
  by_cases hx : x < 0
  · rw [if_pos hx]
    have h2 : (-x + 1 / 2) - 1 < (⌊-x + 1 / 2⌋ : ℚ) := Int.sub_one_lt_floor _
    have h3 : ((-⌊-x + 1 / 2⌋ : ℤ) : ℚ) < (n : ℚ) + 1 := by push_cast; linarith
    have h4 : (-⌊-x + 1 / 2⌋ : ℤ) < n + 1 := by exact_mod_cast h3
    omega
  · rw [if_neg hx]
    have : x + 1 / 2 < n + 1 := by linarith
    have h2 : ⌊x + 1 / 2⌋ < n + 1 := by
      apply Int.floor_lt.mpr
      push_cast
      linarith
    omega

theorem round2_nonneg {x : ℚ} (h : 0 ≤ x) : 0 ≤ round2 x := by
  unfold round2
  have h1 : (0 : ℤ) ≤ goRound (x * 100) := goRound_nonneg (by linarith)
  have h2 : (0 : ℚ) ≤ (goRound (x * 100) : ℚ) := by exact_mod_cast h1
  positivity

theorem round2_le_100 {x : ℚ} (h : x ≤ 100) : round2 x ≤ 100 := by
  unfold round2
  have h1 : goRound (x * 100) ≤ (10000 : ℤ) := by
    apply goRound_le_of_le
    push_cast
    linarith
  have h2 : (goRound (x * 100) : ℚ) ≤ 10000 := by exact_mod_cast h1
  linarith

/-! ## Broadcaster (src/unnamed/part_007, generic pub/sub)

A subscriber is a buffered channel of fixed capacity.  Send delivers to
each subscriber with select { case ch <- val: default: } — the value is
enqueued if the buffer has room and silently dropped otherwise. -/

/-- One subscriber queue: a Go channel of capacity cap holding buf. -/
structure SubQueue (T : Type) where
  cap : Nat
  buf : List T
deriving DecidableEq

/-- Non-blocking channel send: enqueue if below capacity, else drop the
new value (the select/default in Broadcaster.Send). -/
def SubQueue.send (v : T) (q : SubQueue T) : SubQueue T :=
  if q.buf.length < q.cap then { q with buf := q.buf ++ [v] } else q

/-- Broadcaster state: subscriber id to queue, plus the next fresh id. -/
structure Broadcaster (T : Type) where
  subs : List (Nat × SubQueue T)
  next : Nat

/-- NewBroadcaster. -/
def Broadcaster.new (T : Type) : Broadcaster T :=
  { subs := [], next := 0 }

/-- Subscribe with a buffer size: registers a fresh empty queue under the
next id and returns that id. -/
def Broadcaster.subscribe (b : Broadcaster T) (bufSize : Nat) :
    Nat × Broadcaster T :=
  (b.next,
   { subs := b.subs ++ [(b.next, { cap := bufSize, buf := [] })],
     next := b.next + 1 })

/-- Send delivers val to every subscriber; full buffers drop it. -/
def Broadcaster.send (b : Broadcaster T) (v : T) : Broadcaster T :=
  { b with subs := b.subs.map fun p => (p.1, SubQueue.send v p.2) }

/-- A sequence of consecutive Send calls. -/
def Broadcaster.sendAll (b : Broadcaster T) (vs : List T) : Broadcaster T :=
  vs.foldl Broadcaster.send b

/-- Look up the queue of a subscriber id. -/
def Broadcaster.queueOf (b : Broadcaster T) (id : Nat) : Option (SubQueue T) :=
  (b.subs.find? fun p => p.1 = id).map Prod.snd

/-- The claim C1 scenario: a fresh broadcaster, one Subscribe(1) subscriber
that never receives, then one Send per element of vs; observe the
subscriber queue afterwards. -/
def c1Scenario (vs : List Nat) : Option (SubQueue Nat) :=
  let s := (Broadcaster.new Nat).subscribe 1
  (s.2.sendAll vs).queueOf s.1

/-- Sending each element of vs in turn into a single queue. -/
def foldSend (q : SubQueue T) (vs : List T) : SubQueue T :=
  vs.foldl (fun q v => SubQueue.send v q) q

theorem sendAll_single (q : SubQueue T) (n nx : Nat) (vs : List T) :
    Broadcaster.sendAll { subs := [(n, q)], next := nx } vs =
      { subs := [(n, foldSend q vs)], next := nx } := by
  induction vs generalizing q with
  | nil => rfl
  | cons v rest ih =>
      show Broadcaster.sendAll
        (Broadcaster.send { subs := [(n, q)], next := nx } v) rest = _
      rw [show Broadcaster.send { subs := [(n, q)], next := nx } v
            = { subs := [(n, SubQueue.send v q)], next := nx } from rfl]
      rw [ih (SubQueue.send v q)]
      rfl

theorem foldSend_of_full (q : SubQueue T) (h : ¬ q.buf.length < q.cap)
    (vs : List T) : foldSend q vs = q := by
  induction vs with
  | nil => rfl
  | cons v rest ih =>
      show foldSend (SubQueue.send v q) rest = q
      rw [show SubQueue.send v q = q by unfold SubQueue.send; rw [if_neg h]]
      exact ih

end Deskmon

namespace Deskmon

/-- Claim C1 (amended): for a Subscribe(1) subscriber that never receives,
any sequence of Send calls completes (Send is a total function: it never
blocks the producer), and afterwards the queue holds exactly one value,
namely the FIRST value sent: the non-blocking send drops new values once
the capacity-1 buffer is full, so the oldest value is retained, not the
most recent one. -/
theorem broadcaster_keeps_first_value (vs : List Nat) (v : Nat)
    (h : vs.head? = some v) :
    (c1Scenario vs).map SubQueue.buf = some [v] := by
  obtain ⟨rest, rfl⟩ : ∃ rest, vs = v :: rest := by
    cases vs with
    | nil => simp at h
    | cons a rest => simp at h; exact ⟨rest, by rw [h]⟩
  show ((Broadcaster.sendAll
      { subs := [(0, { cap := 1, buf := [] })], next := 1 }
      (v :: rest)).queueOf 0).map SubQueue.buf = some [v]
  rw [sendAll_single]
  have h1 : foldSend { cap := 1, buf := ([] : List Nat) } (v :: rest)
      = { cap := 1, buf := [v] } := by
    show foldSend (SubQueue.send v { cap := 1, buf := [] }) rest = _
    rw [show SubQueue.send v { cap := 1, buf := ([] : List Nat) }
          = { cap := 1, buf := [v] } from rfl]
    exact foldSend_of_full _ (by simp) rest
  rw [h1]
  rfl

/-- Witness for broadcaster_keeps_first_value: 100 consecutive Send calls
of the values 0..99 complete, and the queue afterwards holds [0]. -/
theorem broadcaster_keeps_first_value_witness :
    (List.range 100).head? = some 0 ∧
    (c1Scenario (List.range 100)).map SubQueue.buf = some [0] :=
  ⟨by decide, broadcaster_keeps_first_value (List.range 100) 0 (by decide)⟩

/-- Counterexample to claim C1 as stated: after 100 Send calls of the
values 0..99 to a never-reading Subscribe(1) subscriber, the queue holds
[0], the first value sent — not [99], the most recent value sent. -/
theorem broadcaster_not_most_recent :
    (c1Scenario (List.range 100)).map SubQueue.buf = some [0] ∧
    (c1Scenario (List.range 100)).map SubQueue.buf ≠ some [99] := by
  constructor
  · rfl
  · intro hcontra
    simp only [show (c1Scenario (List.range 100)).map SubQueue.buf
        = some [0] from rfl] at hcontra
    exact absurd (Option.some.inj hcontra) (by decide)

/-! ## System sampler CPU usage (src/internal/collector/system.go,
SystemCollector.sample, lines 157-167)

The sampler reads total and idle jiffies from /proc/stat once per tick
and keeps the counters as uint64.  The deltas totalDelta and idleDelta,
and the numerator totalDelta-idleDelta, are all uint64 subtractions. -/

/-- One /proc/stat CPU reading: total and idle jiffy counters (uint64). -/
structure CpuSample where
  total : Nat
  idle : Nat
deriving DecidableEq

/-- The CPU branch of SystemCollector.sample: compute uint64 deltas of
the counters; when totalDelta > 0 set the usage to
(totalDelta-idleDelta)/totalDelta*100 (the numerator again a uint64
subtraction) rounded to two decimals; otherwise keep the previous usage
value. -/
def sampleCPUUsage (prev cur : CpuSample) (prevUsage : ℚ) : ℚ :=
  let totalDelta := wrapSub cur.total prev.total
  let idleDelta := wrapSub cur.idle prev.idle
  if 0 < totalDelta then
    round2 (((wrapSub totalDelta idleDelta : ℕ) : ℚ) / (totalDelta : ℚ) * 100)
  else prevUsage

/-- Claim C2 (amended): for two consecutive CPU samples in which the
total counter strictly increases AND the idle counter increases by no
more than the total counter (true of genuine monotone /proc/stat
readings, and necessary: without it the unsigned subtraction
totalDelta-idleDelta wraps around), the computed usage percent lies in
[0, 100]. -/
theorem cpu_usage_in_range (prev cur : CpuSample) (u : ℚ)
    (hTot : prev.total < cur.total) (hIdle : prev.idle ≤ cur.idle)
    (hDelta : cur.idle - prev.idle ≤ cur.total - prev.total)
    (hT : cur.total < U64) (hI : cur.idle < U64) :
    0 ≤ sampleCPUUsage prev cur u ∧ sampleCPUUsage prev cur u ≤ 100 := by
  have hwT : wrapSub cur.total prev.total = cur.total - prev.total :=
    wrapSub_eq_sub hTot.le hT
  have hwI : wrapSub cur.idle prev.idle = cur.idle - prev.idle :=
    wrapSub_eq_sub hIdle hI
  set dt := cur.total - prev.total with hdt
  set di := cur.idle - prev.idle with hdi
  have hdtpos : 0 < dt := by omega
  have hdtU : dt < U64 := by omega
  have hwN : wrapSub dt di = dt - di := wrapSub_eq_sub hDelta hdtU
  have harg0 : (0 : ℚ) ≤ ((dt - di : ℕ) : ℚ) / (dt : ℚ) * 100 := by
    positivity
  have harg1 : ((dt - di : ℕ) : ℚ) / (dt : ℚ) * 100 ≤ 100 := by
    have hnum : ((dt - di : ℕ) : ℚ) ≤ (dt : ℚ) := by
      exact_mod_cast Nat.sub_le dt di
    have hden : (0 : ℚ) < (dt : ℚ) := by exact_mod_cast hdtpos
    have hq : ((dt - di : ℕ) : ℚ) / (dt : ℚ) ≤ 1 :=
      (div_le_one hden).mpr hnum
    linarith
  simp only [sampleCPUUsage, hwT, hwI, hwN, if_pos hdtpos]
  exact ⟨round2_nonneg harg0, round2_le_100 harg1⟩

/-- Witness for cpu_usage_in_range at a concrete pair of samples. -/
theorem cpu_usage_in_range_witness :
    0 ≤ sampleCPUUsage ⟨100, 50⟩ ⟨200, 100⟩ 0 ∧
    sampleCPUUsage ⟨100, 50⟩ ⟨200, 100⟩ 0 ≤ 100 :=
  cpu_usage_in_range ⟨100, 50⟩ ⟨200, 100⟩ 0 (by decide) (by decide)
    (by decide) (by decide) (by decide)

/-- Counterexample to claim C2 as stated: the samples (total 100, idle
50) then (total 101, idle 60) have a strictly increasing total counter,
yet because the idle delta (10) exceeds the total delta (1) the unsigned
numerator wraps around and the computed usage percent is astronomically
larger than 100. -/
theorem cpu_usage_counterexample :
    (⟨100, 50⟩ : CpuSample).total < (⟨101, 60⟩ : CpuSample).total ∧
    ¬ sampleCPUUsage ⟨100, 50⟩ ⟨101, 60⟩ 0 ≤ 100 := by
  constructor
  · decide
  · intro hcontra
    have e1 : wrapSub 101 100 = 1 := by decide
    have e2 : wrapSub 60 50 = 10 := by decide
    have e3 : wrapSub 1 10 = 18446744073709551607 := by decide
    have : sampleCPUUsage ⟨100, 50⟩ ⟨101, 60⟩ 0
        = ((1844674407370955160700 : ℚ)) := by
      simp only [sampleCPUUsage, e1, e2, e3]
      norm_num [round2, goRound]
    rw [this] at hcontra
    norm_num at hcontra

/-! ## Container CPU percent (src/internal/collector/docker.go,
calculateCPUPercent, lines 212-235)

Docker supplies paired current/previous cumulative uint64 counters in
one stats response.  The deltas are uint64 subtractions converted to
float64 — hence always non-negative, with wraparound on a decrease. -/

/-- The fields of the Docker stats response that calculateCPUPercent
reads: current/previous container cumulative CPU usage, current/previous
system cumulative usage, the length of the per-CPU usage array and the
OnlineCPUs count. -/
structure DockerCPUStats where
  curTotalUsage : Nat
  preTotalUsage : Nat
  curSystemUsage : Nat
  preSystemUsage : Nat
  percpuLen : Nat
  onlineCPUs : Nat
deriving DecidableEq

/-- Core-count fallback chain of calculateCPUPercent: the per-CPU array
length, else OnlineCPUs, else 1. -/
def numCores (s : DockerCPUStats) : Nat :=
  if s.percpuLen ≠ 0 then s.percpuLen
  else if s.onlineCPUs ≠ 0 then s.onlineCPUs
  else 1

/-- calculateCPUPercent: uint64 deltas of the container and system
counters; 0 when either delta is ≤ 0 (which, the deltas being unsigned,
means exactly 0); otherwise (Δc/Δs)·cores·100 rounded to two decimals. -/
def calculateCPUPercent (s : DockerCPUStats) : ℚ :=
  let containerDelta : ℚ := (wrapSub s.curTotalUsage s.preTotalUsage : ℕ)
  let systemDelta : ℚ := (wrapSub s.curSystemUsage s.preSystemUsage : ℕ)
  if systemDelta ≤ 0 ∨ containerDelta ≤ 0 then 0
  else round2 (containerDelta / systemDelta * (numCores s : ℚ) * 100)

/-- Claim C3 (amended): for counters that do not wrap (previous ≤
current, both below 2^64), calculateCPUPercent returns 0 when either
delta is ZERO, and otherwise returns (Δc/Δs)·cores·100 rounded to two
decimals.  A negative mathematical delta (current < previous) is not
detected: the unsigned subtraction wraps to a huge positive value. -/
theorem calculateCPUPercent_spec (s : DockerCPUStats)
    (h1 : s.preTotalUsage ≤ s.curTotalUsage)
    (h2 : s.preSystemUsage ≤ s.curSystemUsage)
    (h3 : s.curTotalUsage < U64) (h4 : s.curSystemUsage < U64) :
    (s.curTotalUsage = s.preTotalUsage ∨ s.curSystemUsage = s.preSystemUsage
      → calculateCPUPercent s = 0) ∧
    (s.preTotalUsage < s.curTotalUsage → s.preSystemUsage < s.curSystemUsage
      → calculateCPUPercent s =
          round2 (((s.curTotalUsage - s.preTotalUsage : ℕ) : ℚ)
            / ((s.curSystemUsage - s.preSystemUsage : ℕ) : ℚ)
            * (numCores s : ℚ) * 100)) := by
  have hwC : wrapSub s.curTotalUsage s.preTotalUsage
      = s.curTotalUsage - s.preTotalUsage := wrapSub_eq_sub h1 h3
  have hwS : wrapSub s.curSystemUsage s.preSystemUsage
      = s.curSystemUsage - s.preSystemUsage := wrapSub_eq_sub h2 h4
  constructor
  · intro hz
    unfold calculateCPUPercent
    rw [hwC, hwS, if_pos]
    rcases hz with hz | hz
    · right
      have : s.curTotalUsage - s.preTotalUsage = 0 := by omega
      rw [this]
      norm_num
    · left
      have : s.curSystemUsage - s.preSystemUsage = 0 := by omega
      rw [this]
      norm_num
  · intro hc hs
    unfold calculateCPUPercent
    rw [hwC, hwS, if_neg]
    push_neg
    constructor
    · have : 0 < s.curSystemUsage - s.preSystemUsage := by omega
      exact_mod_cast this
    · have : 0 < s.curTotalUsage - s.preTotalUsage := by omega
      exact_mod_cast this

/-- Witness for calculateCPUPercent_spec: the spec fixture Δc=200000000,
Δs=1000000000, 4 cores gives exactly 80. -/
theorem calculateCPUPercent_spec_witness :
    calculateCPUPercent ⟨200000000, 0, 1000000000, 0, 4, 0⟩ = 80 := by
  have h := (calculateCPUPercent_spec ⟨200000000, 0, 1000000000, 0, 4, 0⟩
    (by decide) (by decide) (by decide) (by decide)).2 (by decide) (by decide)
  rw [h]
  norm_num [numCores, round2, goRound]

/-- Counterexample to claim C3 as stated: with container counters
current 5, previous 10 the container-usage delta is -5 ≤ 0, so the claim
demands a result of 0; the code wraps the unsigned subtraction to
2^64-5 and returns a huge positive percentage instead. -/
theorem calculateCPUPercent_counterexample :
    ((5 : ℤ) - 10 ≤ 0) ∧
    calculateCPUPercent ⟨5, 10, 100, 50, 1, 0⟩ ≠ 0 := by
  constructor
  · decide
  · intro hcontra
    have e1 : wrapSub 5 10 = 18446744073709551611 := by decide
    have e2 : wrapSub 100 50 = 50 := by decide
    have : calculateCPUPercent ⟨5, 10, 100, 50, 1, 0⟩
        = (36893488147419103222 : ℚ) := by
      simp only [calculateCPUPercent, e1, e2]
      norm_num [numCores, round2, goRound]
    rw [this] at hcontra
    norm_num at hcontra

/-! ## Temperature (src/internal/collector/system.go, readTemperature,
lines 753-780)

Each thermal zone contributes at most one parsed reading (none when the
zone file is unreadable or unparsable); the kernel reports millidegrees,
so the code divides by 1000.  The found flag is set only inside the
strictly-positive branch. -/

/-- readTemperature: fold over the thermal-zone readings keeping the
maximum of the strictly positive temperatures and a found flag that is
set only when a strictly positive temperature is seen; the maximum is
rounded to one decimal. -/
def readTemperature (zones : List (Option ℚ)) : ℚ × Bool :=
  let r := zones.foldl
    (fun (acc : ℚ × Bool) z =>
      match z with
      | none => acc
      | some val =>
        let temp := val / 1000
        if 0 < temp then
          (if acc.1 < temp then temp else acc.1, true)
        else acc)
    (0, false)
  (round1 r.1, r.2)

theorem readTemperature_fold_flag (zones : List (Option ℚ))
    (acc : ℚ × Bool) :
    (zones.foldl
      (fun (acc : ℚ × Bool) z =>
        match z with
        | none => acc
        | some val =>
          let temp := val / 1000
          if 0 < temp then
            (if acc.1 < temp then temp else acc.1, true)
          else acc)
      acc).2 = true ↔
      (acc.2 = true ∨ ∃ v, some v ∈ zones ∧ 0 < v) := by
  induction zones generalizing acc with
  | nil => simp
  | cons z zs ih =>
      cases z with
      | none =>
          rw [List.foldl_cons]
          rw [ih]
          constructor
          · rintro (h | ⟨v, hv, hvpos⟩)
            · exact Or.inl h
            · exact Or.inr ⟨v, List.mem_cons_of_mem _ hv, hvpos⟩
          · rintro (h | ⟨v, hv, hvpos⟩)
            · exact Or.inl h
            · rcases List.mem_cons.mp hv with h1 | h1
              · exact absurd h1 (by simp)
              · exact Or.inr ⟨v, h1, hvpos⟩
      | some val =>
          rw [List.foldl_cons]
          by_cases hpos : 0 < val / 1000
          · have hval : 0 < val := by
              by_contra hneg
              push_neg at hneg
              have : val / 1000 ≤ 0 := by
                apply div_nonpos_of_nonpos_of_nonneg hneg
                norm_num
              linarith
            simp only [if_pos hpos, ih]
            constructor
            · intro _
              exact Or.inr ⟨val, List.mem_cons_self _ _, hval⟩
            · intro _
              exact Or.inl (by trivial)
          · have hval : ¬ 0 < val := by
              intro hv
              exact hpos (by positivity)
            simp only [if_neg hpos, ih]
            constructor
            · rintro (h | ⟨v, hv, hvpos⟩)
              · exact Or.inl h
              · exact Or.inr ⟨v, List.mem_cons_of_mem _ hv, hvpos⟩
            · rintro (h | ⟨v, hv, hvpos⟩)
              · exact Or.inl h
              · rcases List.mem_cons.mp hv with h1 | h1
                · have h2 : v = val := by injection h1
                  rw [h2] at hvpos
                  exact absurd hvpos hval
                · exact Or.inr ⟨v, h1, hvpos⟩

/-- Claim C7 (amended): the temperature-available flag is true exactly
when at least one thermal-zone reading is present, readable AND strictly
positive; a sensor that genuinely reads 0°C (or below) leaves the flag
false, indistinguishable from no sensor at all. -/
theorem readTemperature_flag_iff (zones : List (Option ℚ)) :
    (readTemperature zones).2 = true ↔ ∃ v, some v ∈ zones ∧ 0 < v := by
  unfold readTemperature
  rw [readTemperature_fold_flag]
  simp

/-- Counterexample to claim C7 as stated: one thermal zone is present
and readable with value 0 millidegrees (0°C), yet the available flag
comes back false, so a genuine 0°C reading is NOT reported as
available. -/
theorem readTemperature_counterexample :
    (∃ v : ℚ, some v ∈ [some (0 : ℚ)]) ∧
    (readTemperature [some 0]).2 = false := by
  refine ⟨⟨0, by simp⟩, ?_⟩
  norm_num [readTemperature]

/-- Witness for readTemperature_flag_iff: a 45°C zone (45000
millidegrees) sets the available flag. -/
theorem readTemperature_flag_iff_witness :
    (readTemperature [some 45000]).2 = true :=
  (readTemperature_flag_iff [some 45000]).mpr
    ⟨45000, by simp, by norm_num⟩

/-! ## Per-process EMA smoothing (src/internal/collector/system.go,
SystemCollector.sampleProcesses, lines 339-347)

Each tick the stored smoothed value is updated to
emaAlpha*rawCPU + (1-emaAlpha)*prev with emaAlpha = 0.2; the stored
value is the pre-rounding one. -/

/-- The EMA smoothing constant emaAlpha = 0.2. -/
def emaAlpha : ℚ := 1 / 5

/-- One smoothing step: emaAlpha*rawCPU + (1-emaAlpha)*prev. -/
def emaStep (rawCPU prev : ℚ) : ℚ :=
  emaAlpha * rawCPU + (1 - emaAlpha) * prev

/-- The smoothed value after n consecutive ticks whose raw CPU is 0,
starting from smoothed value s. -/
def emaZeroTicks (s : ℚ) : Nat → ℚ
  | 0 => s
  | n + 1 => emaStep 0 (emaZeroTicks s n)

theorem emaZeroTicks_eq (s : ℚ) (n : Nat) :
    emaZeroTicks s n = (4 / 5) ^ n * s := by
  induction n with
  | zero => simp [emaZeroTicks]
  | succ n ih =>
      rw [show emaZeroTicks s (n + 1) = emaStep 0 (emaZeroTicks s n) from rfl,
        ih]
      unfold emaStep emaAlpha
      ring

/-- Claim C8 (amended): starting from any smoothed value between 0 and
100, after N ≥ 21 consecutive ticks of raw CPU 0 the smoothed value is
within 1 percentage point of 0.  (After only 5 ticks the value is
0.8^5 ≈ 0.33 of the start, which for large starting values is nowhere
near 0.) -/
theorem ema_decay (s : ℚ) (n : Nat) (h0 : 0 ≤ s) (h1 : s ≤ 100)
    (hn : 21 ≤ n) : |emaZeroTicks s n| ≤ 1 := by
  rw [emaZeroTicks_eq]
  have hp : (0 : ℚ) ≤ (4 / 5) ^ n * s := by positivity
  rw [abs_of_nonneg hp]
  have hstep : ((4 : ℚ) / 5) ^ n ≤ (4 / 5) ^ 21 := by
    apply pow_le_pow_of_le_one (by norm_num) (by norm_num) hn
  have hmul : ((4 : ℚ) / 5) ^ n * s ≤ (4 / 5) ^ 21 * 100 := by
    apply mul_le_mul hstep h1 h0 (by positivity)
  have hfinal : ((4 : ℚ) / 5) ^ 21 * 100 ≤ 1 := by norm_num
  linarith

/-- Witness for ema_decay: starting from 100, after exactly 21 zero
ticks the smoothed value is within 1 of 0. -/
theorem ema_decay_witness : |emaZeroTicks 100 21| ≤ 1 :=
  ema_decay 100 21 (by norm_num) (by norm_num) (by norm_num)

/-- Counterexample to claim C8 as stated: with starting smoothed value
100 and N = 5 ≥ 5 zero ticks, the smoothed value is 4096/125 = 32.768,
which is not within 1 percent of 0 on any reading of that phrase. -/
theorem ema_counterexample :
    5 ≤ 5 ∧ ¬ |emaZeroTicks 100 5| ≤ 1 := by
  refine ⟨le_refl 5, ?_⟩
  rw [emaZeroTicks_eq]
  intro hcontra
  rw [abs_of_nonneg (by positivity)] at hcontra
  norm_num at hcontra

/-! ## Process ranking (src/internal/collector/system.go,
SystemCollector.sampleProcesses, lines 382-396)

The comparator: when the combined scores differ by less than 0.5 it
orders by pid ascending, otherwise by score descending.  sort.Slice
runs plain insertion sort for slices shorter than 12 elements, which is
modelled exactly below (as bubbling each element leftwards from the end
of the already-processed region while it compares less than its left
neighbour). -/

/-- The fields of ProcessInfo that the ranking reads. -/
structure ProcEntry where
  pid : ℤ
  cpuPercent : ℚ
  memoryMB : ℚ
deriving DecidableEq

/-- Combined score: smoothed CPU percent + 0.1 × memory MB. -/
def procScore (p : ProcEntry) : ℚ :=
  p.cpuPercent + p.memoryMB * (1 / 10)

/-- The sort.Slice comparator: pid ascending on near-ties (score
difference below 0.5), otherwise score descending. -/
def procLess (a b : ProcEntry) : Prop :=
  if |procScore a - procScore b| < 1 / 2 then a.pid < b.pid
  else procScore b < procScore a

instance procLess.decidable (a b : ProcEntry) : Decidable (procLess a b) := by
  unfold procLess
  infer_instance

/-- One step of Go insertion sort on the reversed processed region:
the new element x bubbles past each element it is less than, starting
from the most recently placed one. -/
def bubbleIns (x : ProcEntry) : List ProcEntry → List ProcEntry
  | [] => [x]
  | z :: zs => if procLess x z then z :: bubbleIns x zs else x :: z :: zs

/-- Go insertion sort with the procLess comparator (what sort.Slice
executes on the ranking slice when it is shorter than 12 entries):
elements are taken left to right and bubbled into the processed region,
which is kept reversed here and un-reversed at the end. -/
def goInsertionSort (l : List ProcEntry) : List ProcEntry :=
  (l.foldl (fun acc x => bubbleIns x acc) []).reverse

theorem procLess_asymm {a b : ProcEntry} (h : procLess a b) :
    ¬ procLess b a := by
  unfold procLess at h ⊢
  by_cases habs : |procScore a - procScore b| < 1 / 2
  · rw [if_pos habs] at h
    rw [abs_sub_comm] at habs
    rw [if_pos habs]
    omega
  · rw [if_neg habs] at h
    rw [abs_sub_comm] at habs
    rw [if_neg habs]
    linarith

theorem bubbleIns_cons (x z : ProcEntry) (zs : List ProcEntry) :
    bubbleIns x (z :: zs)
      = if procLess x z then z :: bubbleIns x zs else x :: z :: zs := rfl

theorem chain_bubbleIns (x : ProcEntry) (l : List ProcEntry)
    (h : List.Chain' (fun a b => ¬ procLess a b) l) :
    List.Chain' (fun a b => ¬ procLess a b) (bubbleIns x l) := by
  induction l with
  | nil => simp [bubbleIns]
  | cons z zs ih =>
      have hz := (List.chain'_cons'.mp h).1
      have hzs := (List.chain'_cons'.mp h).2
      by_cases hc : procLess x z
      · rw [bubbleIns_cons, if_pos hc]
        apply List.chain'_cons'.mpr
        refine ⟨?_, ih hzs⟩
        intro b hb
        cases zs with
        | nil =>
            simp only [bubbleIns, Option.mem_def, List.head?_cons,
              Option.some.injEq] at hb
            subst hb
            exact procLess_asymm hc
        | cons w ws =>
            by_cases hcw : procLess x w
            · rw [bubbleIns_cons, if_pos hcw] at hb
              simp only [Option.mem_def, List.head?_cons,
                Option.some.injEq] at hb
              subst hb
              exact hz w rfl
            · rw [bubbleIns_cons, if_neg hcw] at hb
              simp only [Option.mem_def, List.head?_cons,
                Option.some.injEq] at hb
              subst hb
              exact procLess_asymm hc
      · rw [bubbleIns_cons, if_neg hc]
        apply List.chain'_cons'.mpr
        refine ⟨?_, h⟩
        intro b hb
        simp only [Option.mem_def, List.head?_cons, Option.some.injEq] at hb
        subst hb
        exact hc

theorem chain_foldl_bubbleIns (l : List ProcEntry) (acc : List ProcEntry)
    (h : List.Chain' (fun a b => ¬ procLess a b) acc) :
    List.Chain' (fun a b => ¬ procLess a b)
      (l.foldl (fun acc x => bubbleIns x acc) acc) := by
  induction l generalizing acc with
  | nil => exact h
  | cons x xs ih =>
      rw [List.foldl_cons]
      exact ih _ (chain_bubbleIns x acc h)

theorem goInsertionSort_chain (l : List ProcEntry) :
    List.Chain' (fun a b => ¬ procLess b a) (goInsertionSort l) := by
  unfold goInsertionSort
  rw [List.chain'_reverse]
  exact chain_foldl_bubbleIns l [] (by simp)

/-- Claim C9 (amended): in the ranked list produced by the sampler sort
(Go insertion sort with the score/pid comparator), every pair of
ADJACENT processes whose combined scores differ by less than 0.5 is in
ascending pid order.  The property does not extend to non-adjacent
pairs: the comparator is not transitive, so a middle element can keep
two near-tied processes in descending pid order. -/
theorem proc_ranking_adjacent_stable (l : List ProcEntry) :
    List.Chain'
      (fun a b => |procScore a - procScore b| < 1 / 2 → a.pid ≤ b.pid)
      (goInsertionSort l) := by
  apply List.Chain'.imp ?_ (goInsertionSort_chain l)
  intro a b hnl hnear
  unfold procLess at hnl
  rw [abs_sub_comm] at hnear
  rw [if_pos hnear] at hnl
  omega

/-- Witness for proc_ranking_adjacent_stable on a concrete near-tied
pair. -/
theorem proc_ranking_adjacent_stable_witness :
    List.Chain'
      (fun a b => |procScore a - procScore b| < 1 / 2 → a.pid ≤ b.pid)
      (goInsertionSort [⟨2, 0, 0⟩, ⟨1, 0, 0⟩]) :=
  proc_ranking_adjacent_stable [⟨2, 0, 0⟩, ⟨1, 0, 0⟩]

/-- Counterexample to claim C9 as stated: with processes
x = (pid 2, score 0.3), z = (pid 3, score 0.6), y = (pid 1, score 0) in
input order [x, z, y], the sort returns [x, z, y] unchanged; the
non-adjacent pair (x, y) has score difference 0.3 < 0.5 yet the larger
pid 2 appears before the smaller pid 1. -/
theorem proc_ranking_counterexample :
    goInsertionSort [⟨2, 3/10, 0⟩, ⟨3, 6/10, 0⟩, ⟨1, 0, 0⟩]
        = [⟨2, 3/10, 0⟩, ⟨3, 6/10, 0⟩, ⟨1, 0, 0⟩] ∧
    ¬ List.Pairwise
        (fun a b => |procScore a - procScore b| < 1 / 2 → a.pid < b.pid)
        (goInsertionSort [⟨2, 3/10, 0⟩, ⟨3, 6/10, 0⟩, ⟨1, 0, 0⟩]) := by
  have hzx : ¬ procLess ⟨3, 6/10, 0⟩ ⟨2, 3/10, 0⟩ := by
    unfold procLess procScore
    have h1 : |(6 : ℚ) / 10 + 0 * (1 / 10) - (3 / 10 + 0 * (1 / 10))|
        < 1 / 2 := by
      have he : (6 : ℚ) / 10 + 0 * (1 / 10) - (3 / 10 + 0 * (1 / 10))
          = 3 / 10 := by ring
      rw [he, abs_lt]
      constructor <;> norm_num
    rw [if_pos h1]
    exact (by omega : ¬ (3 : ℤ) < 2)
  have hyz : ¬ procLess ⟨1, 0, 0⟩ ⟨3, 6/10, 0⟩ := by
    unfold procLess procScore
    have h2 : ¬ |(0 : ℚ) + 0 * (1 / 10) - (6 / 10 + 0 * (1 / 10))|
        < 1 / 2 := by
      have he : (0 : ℚ) + 0 * (1 / 10) - (6 / 10 + 0 * (1 / 10))
          = -(6 / 10) := by ring
      rw [he, abs_neg, abs_of_nonneg (by norm_num : (0 : ℚ) ≤ 6 / 10)]
      norm_num
    rw [if_neg h2]
    norm_num
  have hsorted : goInsertionSort [⟨2, 3/10, 0⟩, ⟨3, 6/10, 0⟩, ⟨1, 0, 0⟩]
      = [(⟨2, 3/10, 0⟩ : ProcEntry), ⟨3, 6/10, 0⟩, ⟨1, 0, 0⟩] := by
    unfold goInsertionSort
    rw [List.foldl_cons, List.foldl_cons, List.foldl_cons, List.foldl_nil]
    rw [show bubbleIns ⟨2, 3/10, 0⟩ [] = [(⟨2, 3/10, 0⟩ : ProcEntry)] from rfl]
    rw [show bubbleIns ⟨3, 6/10, 0⟩ [(⟨2, 3/10, 0⟩ : ProcEntry)]
        = [⟨3, 6/10, 0⟩, ⟨2, 3/10, 0⟩] by
      rw [bubbleIns_cons, if_neg hzx]]
    rw [show bubbleIns ⟨1, 0, 0⟩ [(⟨3, 6/10, 0⟩ : ProcEntry), ⟨2, 3/10, 0⟩]
        = [⟨1, 0, 0⟩, ⟨3, 6/10, 0⟩, ⟨2, 3/10, 0⟩] by
      rw [bubbleIns_cons, if_neg hyz]]
    rfl
  refine ⟨hsorted, ?_⟩
  rw [hsorted]
  intro hp
  have hpair := (List.pairwise_cons.mp hp).1 ⟨1, 0, 0⟩ (by simp)
  have hnear : |procScore ⟨2, 3/10, 0⟩ - procScore ⟨1, 0, 0⟩| < 1 / 2 := by
    unfold procScore
    have he : (3 : ℚ) / 10 + 0 * (1 / 10) - (0 + 0 * (1 / 10))
        = 3 / 10 := by ring
    rw [he, abs_lt]
    constructor <;> norm_num
  have hlt : (2 : ℤ) < 1 := hpair hnear
  omega

/-! ## CollectTopProcesses (src/internal/collector/system.go, lines
267-278)

The limit is clamped from above to the cached length, then a Go slice
of that length is allocated; make panics on a negative length, which is
modelled as none. -/

/-- CollectTopProcesses: clamp limit from above to the cached length,
allocate a slice of that length (none models the runtime panic of make
on a negative length) and copy the first limit cached entries into
it. -/
def collectTopProcesses (topProcesses : List ProcEntry) (limit : ℤ) :
    Option (List ProcEntry) :=
  let lim := if (topProcesses.length : ℤ) < limit
    then (topProcesses.length : ℤ) else limit
  if lim < 0 then none
  else some (topProcesses.take lim.toNat)

/-- Claim C10: CollectTopProcesses returns a copy of the first
min(limit, cached length) entries for every limit ≥ 0 and panics
(models as none) for every negative limit, since the limit is only
clamped from above. -/
theorem collectTopProcesses_spec (cached : List ProcEntry) (limit : ℤ) :
    (0 ≤ limit → collectTopProcesses cached limit
        = some (cached.take (min limit.toNat cached.length))) ∧
    (limit < 0 → collectTopProcesses cached limit = none) := by
  simp only [collectTopProcesses]
  by_cases hlt : (cached.length : ℤ) < limit
  · rw [if_pos hlt]
    constructor
    · intro hpos
      rw [if_neg (by omega : ¬ (cached.length : ℤ) < 0)]
      have h1 : (cached.length : ℤ).toNat = cached.length :=
        Int.toNat_natCast _
      have h2 : min limit.toNat cached.length = cached.length := by omega
      rw [h1, h2]
    · intro hneg
      exact absurd hlt (by omega)
  · rw [if_neg hlt]
    constructor
    · intro hpos
      rw [if_neg (by omega : ¬ limit < 0)]
      have h2 : min limit.toNat cached.length = limit.toNat := by omega
      rw [h2]
    · intro hneg
      rw [if_pos hneg]

/-- Witness for collectTopProcesses_spec: on a two-element cache,
limit 1 returns the first entry and limit -1 panics. -/
theorem collectTopProcesses_spec_witness :
    collectTopProcesses [⟨1, 0, 0⟩, ⟨2, 0, 0⟩] 1 = some [⟨1, 0, 0⟩] ∧
    collectTopProcesses [⟨1, 0, 0⟩, ⟨2, 0, 0⟩] (-1) = none := by
  constructor
  · have h := (collectTopProcesses_spec [⟨1, 0, 0⟩, ⟨2, 0, 0⟩] 1).1
      (by norm_num)
    rw [h]
    rfl
  · exact (collectTopProcesses_spec [⟨1, 0, 0⟩, ⟨2, 0, 0⟩] (-1)).2
      (by norm_num)

/-! ## Service detector (src/unnamed/part_008: ServiceDetector,
SetServiceConfig lines 219-237, runDetection lines 330-384)

Go maps are modelled as total functions into Option.  runDetection is
reduced to its state transition: the per-plugin detection results are an
input (the plugins themselves perform network probes). -/

/-- DetectedService (registry.go): plugin id, display name, icon, base
URL, protocol version and the free-form metadata map. -/
structure DetectedService where
  pluginID : String
  name : String
  icon : String
  baseURL : String
  version : String
  meta : String → Option String

/-- The ServiceDetector state that claim C4 touches: the detected map
(plugin id to service) and the stored configuration (plugin id to key
to value). -/
structure DetectorState where
  detected : String → Option DetectedService
  serviceConfigs : String → String → Option String

/-- SetServiceConfig: store the key/value under the plugin id, and also
inject it into the metadata of the already-detected service for that
plugin, if any, so the next collection cycle sees it. -/
def setServiceConfig (sd : DetectorState) (pluginID key value : String) :
    DetectorState :=
  { serviceConfigs := fun id =>
      if id = pluginID then
        fun k => if k = key then some value else sd.serviceConfigs id k
      else sd.serviceConfigs id,
    detected := fun id =>
      if id = pluginID then
        match sd.detected id with
        | some svc => some { svc with
            meta := fun k => if k = key then some value else svc.meta k }
        | none => none
      else sd.detected id }

/-- runDetection as a state transition: newDetected maps each plugin id
to its fresh detection result (none when the plugin did not detect this
sweep).  Every fresh result gets the stored configs for its plugin
injected into its metadata (overriding plugin-provided entries), keeps
the previous version when its own is empty, and replaces the old entry;
ids with no fresh result are removed from the detected set. -/
def runDetection (sd : DetectorState)
    (newDetected : String → Option DetectedService) : DetectorState :=
  { sd with detected := fun id =>
      match newDetected id with
      | some svc =>
          let merged := { svc with meta := fun k =>
            match sd.serviceConfigs id k with
            | some v => some v
            | none => svc.meta k }
          some (match sd.detected id with
            | some prev =>
                if svc.version = "" then
                  { merged with version := prev.version }
                else merged
            | none => merged)
      | none => none }

/-- Claim C4: after a detection sweep, a plugin with no fresh detection
result is removed from the detected set; and a value stored earlier via
SetServiceConfig is present under its key both in the metadata of the
already-detected service (immediately after the call) and in the
metadata of every service subsequently detected for that plugin. -/
theorem detector_config_and_removal (sd : DetectorState)
    (pluginID key value : String)
    (newDetected : String → Option DetectedService) :
    (∀ svc, (setServiceConfig sd pluginID key value).detected pluginID
        = some svc → svc.meta key = some value) ∧
    (newDetected pluginID = none →
      (runDetection (setServiceConfig sd pluginID key value)
        newDetected).detected pluginID = none) ∧
    (∀ svc, newDetected pluginID = some svc →
      Option.map (fun s => s.meta key)
        ((runDetection (setServiceConfig sd pluginID key value)
          newDetected).detected pluginID)
      = some (some value)) := by
  have hcfg : (setServiceConfig sd pluginID key value).serviceConfigs
      pluginID key = some value := by
    simp [setServiceConfig]
  refine ⟨?_, ?_, ?_⟩
  · intro svc hsvc
    cases hdet : sd.detected pluginID with
    | none => simp [setServiceConfig, hdet] at hsvc
    | some prev =>
        simp only [setServiceConfig, hdet, if_true, eq_self_iff_true,
          Option.some.injEq] at hsvc
        rw [← hsvc]
        simp
  · intro hnone
    simp only [runDetection]
    rw [hnone]
  · intro svc hsvc
    simp only [runDetection]
    rw [hsvc]
    cases hdet : (setServiceConfig sd pluginID key value).detected
        pluginID with
    | none =>
        simp only [Option.map_some', Option.some.injEq]
        rw [hcfg]
    | some prev =>
        by_cases hver : svc.version = ""
        · simp only [if_pos hver, Option.map_some', Option.some.injEq]
          rw [hcfg]
        · simp only [if_neg hver, Option.map_some', Option.some.injEq]
          rw [hcfg]

/-- Witness for detector_config_and_removal: a password stored for the
pihole plugin between sweeps is present in the re-detected metadata, and
a plugin with no fresh result is removed. -/
theorem detector_config_and_removal_witness :
    Option.map (fun s => s.meta "password")
      ((runDetection
        (setServiceConfig ⟨fun _ => none, fun _ _ => none⟩
          "pihole" "password" "hunter2")
        (fun id => if id = "pihole"
          then some ⟨"pihole", "Pi-hole", "shield.checkerboard",
            "http://localhost:80", "", fun _ => none⟩
          else none)).detected "pihole")
    = some (some "hunter2") ∧
    (runDetection
        (setServiceConfig ⟨fun _ => none, fun _ _ => none⟩
          "pihole" "password" "hunter2")
        (fun id => if id = "pihole"
          then some ⟨"pihole", "Pi-hole", "shield.checkerboard",
            "http://localhost:80", "", fun _ => none⟩
          else none)).detected "traefik" = none := by
  constructor
  · exact (detector_config_and_removal ⟨fun _ => none, fun _ _ => none⟩
      "pihole" "password" "hunter2" _).2.2
      ⟨"pihole", "Pi-hole", "shield.checkerboard",
        "http://localhost:80", "", fun _ => none⟩ (by rw [if_pos rfl])
  · simp only [runDetection]
    rw [if_neg (by decide : ¬ "traefik" = "pihole")]

/-! ## Pi-hole plugin collection
(src/internal/collector/services/pihole.go, Collect lines 272-340,
collectV6Authenticated lines 398-429)

The network is modelled as an oracle: one Except-valued outcome per
distinct call the code can make during one Collect.  The trace records
the order of attempts actually made. -/

/-- A value of the loosely typed structured stats map. -/
inductive SVal where
  | str (s : String)
  | int (n : ℤ)
  | bool (b : Bool)
deriving DecidableEq

/-- StatItem (registry.go): one summary line. -/
structure StatItem where
  label : String
  value : String
  type : String
deriving DecidableEq

/-- ServiceStats (registry.go): the payload of one collection. -/
structure ServiceStats where
  pluginID : String
  name : String
  icon : String
  status : String
  summary : List StatItem
  stats : List (String × SVal)
  error : String
deriving DecidableEq

/-- piholeData: the summary/stats/status triple each collector variant
produces. -/
structure PiholeData where
  summary : List StatItem
  stats : List (String × SVal)
  status : String
deriving DecidableEq

/-- The v6 session: sid, csrf and whether the expiry timestamp is still
in the future (real time is abstracted to this flag). -/
structure PiholeSession where
  sid : String
  csrf : String
  notExpired : Bool
deriving DecidableEq

/-- isValid: non-empty sid and not yet expired. -/
def PiholeSession.isValid (s : PiholeSession) : Bool :=
  s.sid != "" && s.notExpired

/-- clear: wipe the session. -/
def PiholeSession.clear : PiholeSession :=
  { sid := "", csrf := "", notExpired := false }

/-- set: cache a fresh session (its expiry, validity minus a margin, is
in the future). -/
def sessionSet (sid csrf : String) : PiholeSession :=
  { sid := sid, csrf := csrf, notExpired := true }

/-- The network oracle: the outcome of each distinct call one Collect
can make. -/
structure PiholeWorld where
  v5Result : Except String PiholeData
  summarySession : Except String PiholeData
  summaryNoAuth : Except String PiholeData
  authResult : Except String (String × String)
  summaryNewSession : Except String PiholeData
  publicResult : Except String PiholeData

/-- The calls Collect can attempt, in trace order. -/
inductive PiAttempt where
  | v5
  | v6SummarySession
  | v6SummaryNoAuth
  | v6Auth
  | v6SummaryNewSession
  | v6Public
deriving DecidableEq

/-- The tail of collectV6Authenticated after the cached-session branch:
try the summary endpoint unauthenticated; on failure, fail with the
authentication-required error when no password is configured, otherwise
authenticate and retry once with the fresh session. -/
def v6NoAuthPath (w : PiholeWorld) (sess : PiholeSession)
    (password : String) (tr : List PiAttempt) :
    Except String PiholeData × PiholeSession × List PiAttempt :=
  match w.summaryNoAuth with
  | .ok d => (.ok d, sess, tr ++ [.v6SummaryNoAuth])
  | .error _ =>
      if password = "" then
        (.error "Pi-hole v6 requires authentication (401)", sess,
          tr ++ [.v6SummaryNoAuth])
      else
        match w.authResult with
        | .error ae => (.error ("pihole auth: " ++ ae), sess,
            tr ++ [.v6SummaryNoAuth, .v6Auth])
        | .ok sc => (w.summaryNewSession, sessionSet sc.1 sc.2,
            tr ++ [.v6SummaryNoAuth, .v6Auth, .v6SummaryNewSession])

/-- collectV6Authenticated: use the cached session first when it is
valid (clearing it if the fetch fails), then fall through to the
unauthenticated/credential path. -/
def collectV6Authenticated (w : PiholeWorld) (sess : PiholeSession)
    (password : String) :
    Except String PiholeData × PiholeSession × List PiAttempt :=
  if sess.isValid then
    match w.summarySession with
    | .ok d => (.ok d, sess, [.v6SummarySession])
    | .error _ =>
        v6NoAuthPath w PiholeSession.clear password [.v6SummarySession]
  else
    v6NoAuthPath w sess password []

/-- Go strings list-level helper: does the pattern occur at the start. -/
def charsStartWith : List Char → List Char → Bool
  | [], _ => true
  | _ :: _, [] => false
  | a :: as, b :: bs => a == b && charsStartWith as bs

/-- Go strings list-level helper: does the pattern occur anywhere. -/
def charsContain (sub : List Char) : List Char → Bool
  | [] => sub.isEmpty
  | c :: rest => charsStartWith sub (c :: rest) || charsContain sub rest

/-- Go strings.Contains(s, sub). -/
def goContains (s sub : String) : Bool :=
  charsContain sub.toList s.toList

/-- The empty ServiceStats skeleton Collect starts from. -/
def piholeStats0 : ServiceStats :=
  { pluginID := "pihole", name := "Pi-hole", icon := "shield.checkerboard",
    status := "running", summary := [], stats := [], error := "" }

/-- PiHolePlugin.Collect: try v5; then the v6 authenticated path; then
the v6 public endpoint; if everything failed and the v6 error mentions
401 or authentication, report a running service with an authRequired
flag instead of an error; otherwise return the combined error.  The
result carries the final session, the (possibly updated) service
version, and the trace of attempts. -/
def piholeCollect (w : PiholeWorld) (sess : PiholeSession)
    (password version baseURL : String) :
    Except String ServiceStats × PiholeSession × String × List PiAttempt :=
  match w.v5Result with
  | .ok d =>
      (.ok { piholeStats0 with
              summary := d.summary
              stats := d.stats
              status := d.status },
       sess, if version = "" then "v5" else version, [.v5])
  | .error v5err =>
      match collectV6Authenticated w sess password with
      | (.ok d, sess2, tr) =>
          (.ok { piholeStats0 with
                  summary := d.summary
                  stats := d.stats
                  status := d.status },
           sess2, (if version = "" then "v6" else version),
           PiAttempt.v5 :: tr)
      | (.error v6err, sess2, tr) =>
          match w.publicResult with
          | .ok d =>
              (.ok { piholeStats0 with
                      summary := d.summary
                      stats := d.stats
                      status := d.status },
               sess2, (if version = "" then "v6" else version),
               PiAttempt.v5 :: tr ++ [.v6Public])
          | .error _ =>
              if goContains v6err "401" || goContains v6err "authentication"
              then
                (.ok { piholeStats0 with
                        status := "running"
                        summary := [⟨"Version", "v6", "text"⟩,
                          ⟨"Status", "Running", "status"⟩]
                        stats := [("version", SVal.str "v6"),
                          ("authRequired", SVal.bool true)] },
                 sess2, (if version = "" then "v6" else version),
                 PiAttempt.v5 :: tr ++ [.v6Public])
              else
                (.error ("could not reach Pi-hole API at " ++ baseURL
                    ++ " (v5: " ++ v5err ++ ", v6: " ++ v6err ++ ")"),
                 sess2, version,
                 PiAttempt.v5 :: tr ++ [.v6Public])

/-- The canonical order of Pi-hole collection attempts. -/
def piAttemptOrder : List PiAttempt :=
  [.v5, .v6SummarySession, .v6SummaryNoAuth, .v6Auth,
   .v6SummaryNewSession, .v6Public]

theorem v6NoAuthPath_trace (w : PiholeWorld) (sess : PiholeSession)
    (password : String) (tr : List PiAttempt) :
    ∃ suf, (v6NoAuthPath w sess password tr).2.2 = tr ++ suf ∧
      suf.Sublist [.v6SummaryNoAuth, .v6Auth, .v6SummaryNewSession] := by
  unfold v6NoAuthPath
  cases w.summaryNoAuth with
  | ok d => exact ⟨[.v6SummaryNoAuth], rfl, by decide⟩
  | error e =>
      by_cases hp : password = ""
      · rw [if_pos hp]
        exact ⟨[.v6SummaryNoAuth], rfl, by decide⟩
      · rw [if_neg hp]
        cases w.authResult with
        | error ae => exact ⟨[.v6SummaryNoAuth, .v6Auth], rfl, by decide⟩
        | ok sc =>
            exact ⟨[.v6SummaryNoAuth, .v6Auth, .v6SummaryNewSession], rfl,
              by decide⟩

theorem collectV6Authenticated_trace (w : PiholeWorld)
    (sess : PiholeSession) (password : String) :
    ((collectV6Authenticated w sess password).2.2).Sublist
      [.v6SummarySession, .v6SummaryNoAuth, .v6Auth,
       .v6SummaryNewSession] := by
  unfold collectV6Authenticated
  cases hv : sess.isValid with
  | true =>
      rw [if_pos rfl]
      cases w.summarySession with
      | ok d =>
          show ([PiAttempt.v6SummarySession]).Sublist
            [.v6SummarySession, .v6SummaryNoAuth, .v6Auth,
             .v6SummaryNewSession]
          decide
      | error e =>
          obtain ⟨suf, hs, hsub⟩ :=
            v6NoAuthPath_trace w PiholeSession.clear password
              [.v6SummarySession]
          rw [hs]
          exact List.Sublist.cons₂ _ hsub
  | false =>
      rw [if_neg Bool.false_ne_true]
      obtain ⟨suf, hs, hsub⟩ := v6NoAuthPath_trace w sess password []
      rw [hs, List.nil_append]
      exact hsub.cons _

/-- Claim C5 (amended): on every collection call the plugin attempts v5
first and, if v5 parses, uses it and makes no other attempt (skipping
authentication entirely); when v5 fails it runs the v6 authenticated
path — cached session, then unauthenticated summary, then credential
authentication — BEFORE the public endpoint: the full attempt trace is
always a sublist of [v5, session-summary, no-auth summary, credential
auth, fresh-session summary, public]. -/
theorem pihole_attempt_order (w : PiholeWorld) (sess : PiholeSession)
    (password version baseURL : String) :
    ((piholeCollect w sess password version baseURL).2.2.2).Sublist
        piAttemptOrder ∧
    ((piholeCollect w sess password version baseURL).2.2.2).head?
        = some .v5 ∧
    (∀ d, w.v5Result = .ok d →
      (piholeCollect w sess password version baseURL).2.2.2 = [.v5]) := by
  have hca := collectV6Authenticated_trace w sess password
  unfold piholeCollect
  cases hv5 : w.v5Result with
  | ok d =>
      refine ⟨?_, rfl, fun d0 hd0 => rfl⟩
      show ([PiAttempt.v5]).Sublist piAttemptOrder
      decide
  | error v5err =>
      rcases hres : collectV6Authenticated w sess password with
        ⟨res, sess2, tr⟩
      rw [hres] at hca
      refine ⟨?_, ?_, ?_⟩
      · cases res with
        | ok d =>
            show (PiAttempt.v5 :: tr).Sublist piAttemptOrder
            exact List.Sublist.cons₂ _ (hca.trans (by decide))
        | error v6err =>
            cases hpub : w.publicResult with
            | ok d =>
                show (PiAttempt.v5 :: (tr ++ [.v6Public])).Sublist
                  piAttemptOrder
                exact List.Sublist.cons₂ _
                  (List.Sublist.append hca (by decide))
            | error e =>
                cases hcond : (goContains v6err "401"
                    || goContains v6err "authentication") with
                | true =>
                    simp only [if_pos hcond]
                    show (PiAttempt.v5 :: (tr ++ [.v6Public])).Sublist
                      piAttemptOrder
                    exact List.Sublist.cons₂ _
                      (List.Sublist.append hca (by decide))
                | false =>
                    simp only [hcond, Bool.false_eq_true, if_false]
                    show (PiAttempt.v5 :: (tr ++ [.v6Public])).Sublist
                      piAttemptOrder
                    exact List.Sublist.cons₂ _
                      (List.Sublist.append hca (by decide))
      · cases res with
        | ok d => rfl
        | error v6err =>
            cases hpub : w.publicResult with
            | ok d => rfl
            | error e =>
                cases hcond : (goContains v6err "401"
                    || goContains v6err "authentication") with
                | true => simp only [if_pos hcond]; rfl
                | false =>
                    simp only [hcond, Bool.false_eq_true, if_false]
                    rfl
      · intro d0 hd0
        exact absurd hd0 (by simp)

/-- A world in which the v5 endpoint parses successfully. -/
def piholeWorldV5 : PiholeWorld :=
  { v5Result := .ok ⟨[], [], "running"⟩,
    summarySession := .error "HTTP 401",
    summaryNoAuth := .error "HTTP 401",
    authResult := .error "auth returned HTTP 404",
    summaryNewSession := .error "HTTP 401",
    publicResult := .error "connection refused" }

/-- Witness for pihole_attempt_order: when v5 parses, the whole trace is
the single v5 attempt — authentication is skipped entirely. -/
theorem pihole_attempt_order_witness :
    (piholeCollect piholeWorldV5 ⟨"", "", false⟩ "" "" "http://host").2.2.2
      = [PiAttempt.v5] :=
  (pihole_attempt_order piholeWorldV5 ⟨"", "", false⟩ "" ""
    "http://host").2.2 ⟨[], [], "running"⟩ rfl

/-- A world in which v5 fails and the cached-session summary fetch
succeeds. -/
def piholeWorldSession : PiholeWorld :=
  { v5Result := .error "invalid JSON",
    summarySession := .ok ⟨[], [], "running"⟩,
    summaryNoAuth := .error "HTTP 401",
    authResult := .ok ("sid2", "csrf2"),
    summaryNewSession := .ok ⟨[], [], "running"⟩,
    publicResult := .error "connection refused" }

/-- The ordering property claim C5 asserts about a trace: every
cached-session or credential-based attempt is preceded by a public
endpoint attempt. -/
def publicPrecedesAuth (tr : List PiAttempt) : Prop :=
  ∀ i : Fin tr.length,
    (tr.get i = PiAttempt.v6SummarySession ∨
     tr.get i = PiAttempt.v6Auth ∨
     tr.get i = PiAttempt.v6SummaryNewSession) →
    ∃ j : Fin tr.length, j.val < i.val ∧ tr.get j = PiAttempt.v6Public

/-- Counterexample to claim C5 as stated: with v5 failing and a valid
cached session whose summary fetch succeeds, the trace is
[v5, cached-session summary] — a cached-session authenticated call is
made with NO public-endpoint attempt before it. -/
theorem pihole_public_not_first_counterexample :
    (piholeCollect piholeWorldSession ⟨"cached-sid", "cached-csrf", true⟩
        "admin" "" "http://host").2.2.2
      = [PiAttempt.v5, PiAttempt.v6SummarySession] ∧
    ¬ publicPrecedesAuth [PiAttempt.v5, PiAttempt.v6SummarySession] := by
  constructor
  · rfl
  · intro hcontra
    unfold publicPrecedesAuth at hcontra
    exact absurd hcontra (by decide)

/-- Claim C6: when v5 fails, no session is cached, the v6 summary
endpoint rejects the unauthenticated call (e.g. with 401), no password
is configured, and the public endpoint also fails, Collect returns ok —
not an error — with status running and an authRequired flag in the
structured stats map. -/
theorem pihole_auth_required (w : PiholeWorld) (sess : PiholeSession)
    (version baseURL e5 e6 ep : String)
    (h5 : w.v5Result = .error e5)
    (hs : sess.isValid = false)
    (hna : w.summaryNoAuth = .error e6)
    (hp : w.publicResult = .error ep) :
    (piholeCollect w sess "" version baseURL).1
      = .ok { piholeStats0 with
              status := "running"
              summary := [⟨"Version", "v6", "text"⟩,
                ⟨"Status", "Running", "status"⟩]
              stats := [("version", SVal.str "v6"),
                ("authRequired", SVal.bool true)] } := by
  have hca : collectV6Authenticated w sess ""
      = (.error "Pi-hole v6 requires authentication (401)", sess,
         [.v6SummaryNoAuth]) := by
    unfold collectV6Authenticated
    rw [hs, if_neg Bool.false_ne_true]
    unfold v6NoAuthPath
    rw [hna, if_pos rfl]
    rfl
  have hcond : (goContains "Pi-hole v6 requires authentication (401)" "401"
      || goContains "Pi-hole v6 requires authentication (401)"
          "authentication") = true := by decide
  unfold piholeCollect
  rw [h5, hca, hp]
  simp only [hcond, if_true]

/-- A world in which everything except authenticated access fails. -/
def piholeWorldAuthRequired : PiholeWorld :=
  { v5Result := .error "invalid JSON",
    summarySession := .error "HTTP 401",
    summaryNoAuth := .error "HTTP 401",
    authResult := .error "auth request failed",
    summaryNewSession := .error "HTTP 401",
    publicResult := .error "connection refused" }

/-- Witness for pihole_auth_required at a concrete world and an empty
session. -/
theorem pihole_auth_required_witness :
    (piholeCollect piholeWorldAuthRequired ⟨"", "", false⟩ "" ""
        "http://host").1
      = .ok { piholeStats0 with
              status := "running"
              summary := [⟨"Version", "v6", "text"⟩,
                ⟨"Status", "Running", "status"⟩]
              stats := [("version", SVal.str "v6"),
                ("authRequired", SVal.bool true)] } :=
  pihole_auth_required piholeWorldAuthRequired ⟨"", "", false⟩ ""
    "http://host" "invalid JSON" "HTTP 401" "connection refused"
    rfl rfl rfl rfl

end Deskmon
